import Mathlib

/-!
Shallow embedding of the synchronized-checkpoint engine of
src/src/checkpointsync.cpp (Feathercoin-Foundation/platinum-core).

Block hashes (uint256) are modelled as natural numbers; the all-zero
uint256 sentinel is 0. The block index (BlockManager.m_block_index) is an
association list from hash to block-index entry; an entry carries its
height (nHeight, a C int, modelled as Int) and the hash of its parent
(pprev, a pointer, modelled as Option Hash so that none is the null
pointer of the genesis block). The active chain (CChain.m_chain) is the
list of block hashes indexed by height, so CChain.Contains(pindex) -
which compares vChain[pindex->nHeight] with the pointer pindex - becomes
a lookup of the entry's height in that list.

Backward walks over pprev links are written with explicit fuel; each
caller passes the fuel that the corresponding C++ loop consumes, namely
the height difference it walks down, which is exact whenever the block
index is well formed (every pprev resolves and drops the height by one,
as the C++ pointer structure guarantees).
-/

abbrev Hash := Nat

/-- CBlockIndex as used by checkpointsync.cpp: height and parent link. -/
structure CBlockIndex where
  nHeight : Int
  pprev : Option Hash
deriving DecidableEq

/-- The chain-related state the file reads: the block index map and the
active chain (hash at each height). -/
structure Chainstate where
  blockIndex : List (Hash × CBlockIndex)
  chain : List Hash
deriving DecidableEq

namespace Chainstate

/-- m_block_index lookup. -/
def lookup (cs : Chainstate) (h : Hash) : Option CBlockIndex :=
  (cs.blockIndex.find? (fun p => p.1 == h)).map Prod.snd

/-- m_block_index.count(h) ≠ 0. -/
def count (cs : Chainstate) (h : Hash) : Bool :=
  (cs.lookup h).isSome

/-- CChain::Contains(pindex): (*this)[pindex->nHeight] == pindex; the
operator[] returns null for a height outside [0, Height()]. -/
def contains (cs : Chainstate) (h : Hash) (e : CBlockIndex) : Bool :=
  decide (0 ≤ e.nHeight) && (cs.chain[e.nHeight.toNat]? == some h)

/-- CChain::Tip(): the last element of the height-indexed chain. -/
def tip (cs : Chainstate) : Option Hash :=
  cs.chain[cs.chain.length - 1]?

/-- One block-index entry is well formed: its pprev pointer is null
exactly at height 0, and otherwise resolves to an entry one height
below, as the C++ block index guarantees by construction. -/
def entryOk (cs : Chainstate) (pr : Hash × CBlockIndex) : Bool :=
  match pr.2.pprev with
  | none => pr.2.nHeight == 0
  | some p =>
    match cs.lookup p with
    | none => false
    | some pe => pe.nHeight == pr.2.nHeight - 1

/-- Every block-index entry is well formed. -/
def wfIndex (cs : Chainstate) : Bool :=
  cs.blockIndex.all (entryOk cs)

/-- The active chain is well formed: the hash at position i resolves in
the block index to an entry of height i whose parent link is the chain
element at position i-1 (null at the genesis position). -/
def wfChain (cs : Chainstate) : Bool :=
  (List.range cs.chain.length).all fun i =>
    match cs.chain[i]? with
    | none => false
    | some h =>
      match cs.lookup h with
      | none => false
      | some e =>
        e.nHeight == (i : Int) &&
          (if i = 0 then e.pprev == none else e.pprev == cs.chain[i-1]?)

end Chainstate

/-- CSyncCheckpoint. The class body lives in the missing header
checkpointsync.h; only the checkpoint hash carried by the message
matters to this file. Signature verification (CheckSignature, ECDSA over
the raw signed bytes against the network master public key) is an
external primitive, abstracted as the oracle field sigOk. -/
structure CSyncCheckpoint where
  hashCheckpoint : Hash
  sigOk : Bool
deriving DecidableEq

namespace CSyncCheckpoint

/-- Modelled from the spec: a message is null if its hash is the
sentinel zero; SetNull (declared in the missing header) resets the
message to that null state, clearing the signed payload. -/
def null : CSyncCheckpoint := { hashCheckpoint := 0, sigOk := false }

/-- Modelled from the spec: a message is null iff its hash is the
sentinel zero. -/
def IsNull (m : CSyncCheckpoint) : Bool := m.hashCheckpoint == 0

end CSyncCheckpoint

/-- The process-wide mutable checkpoint state of checkpointsync.cpp
(lines 66-73): active hash, pending hash, the retained messages, the
invalid-checkpoint diagnostic and the warning string. -/
structure CheckpointState where
  hashSyncCheckpoint : Hash
  hashPendingCheckpoint : Hash
  checkpointMessage : CSyncCheckpoint
  checkpointMessagePending : CSyncCheckpoint
  hashInvalidCheckpoint : Hash
  strCheckpointWarning : String
deriving DecidableEq

/-- The distinct exit paths of ValidateSyncCheckpoint. In C++ the
function returns bool; every constructor except accept is a false
return, each from a distinct error(...) or the ignore return. -/
inductive ValidateResult
  | missingActive
  | missingRecv
  | conflicting
  | ignore
  | structureFailure
  | notDescendant
  | accept
deriving DecidableEq

/-- The backward walk of ValidateSyncCheckpoint lines 102-105: while the
height is above the target, step to pprev; a null pprev is a structure
failure (none). Fuel bounds the number of steps; callers pass the height
difference, which the C++ loop consumes exactly on a well-formed index. -/
def traceBack (cs : Chainstate) (target : Int) :
    Nat → Hash × CBlockIndex → Option (Hash × CBlockIndex)
  | 0, (h, e) => if e.nHeight ≤ target then some (h, e) else none
  | fuel + 1, (h, e) =>
    if e.nHeight ≤ target then some (h, e)
    else
      match e.pprev with
      | none => none
      | some p =>
        match cs.lookup p with
        | none => none
        | some pe => traceBack cs target fuel (p, pe)

/-- ValidateSyncCheckpoint (lines 76-113). Returns the exit path taken
and the updated global state (only hashInvalidCheckpoint is ever
written, on the two conflict paths). -/
def ValidateSyncCheckpoint (hashCheckpoint : Hash) (cs : Chainstate)
    (st : CheckpointState) : ValidateResult × CheckpointState :=
  match cs.lookup st.hashSyncCheckpoint with
  | none => (.missingActive, st)
  | some pindexSyncCheckpoint =>
    match cs.lookup hashCheckpoint with
    | none => (.missingRecv, st)
    | some pindexCheckpointRecv =>
      if pindexCheckpointRecv.nHeight ≤ pindexSyncCheckpoint.nHeight then
        if !(cs.contains hashCheckpoint pindexCheckpointRecv) then
          (.conflicting, { st with hashInvalidCheckpoint := hashCheckpoint })
        else
          (.ignore, st)
      else
        match traceBack cs pindexSyncCheckpoint.nHeight
            (pindexCheckpointRecv.nHeight - pindexSyncCheckpoint.nHeight).toNat
            (hashCheckpoint, pindexCheckpointRecv) with
        | none => (.structureFailure, st)
        | some (h, _) =>
          if h ≠ st.hashSyncCheckpoint then
            (.notDescendant, { st with hashInvalidCheckpoint := hashCheckpoint })
          else
            (.accept, st)

/-- The external checkpoint store (block tree db). writes records every
WriteSyncCheckpoint call that reached the db; writeOk is the abstract
I/O oracle deciding whether a db write succeeds. -/
structure Store where
  writes : List Hash
  writeOk : Bool
deriving DecidableEq

/-- WriteSyncCheckpoint (lines 115-123): write the hash to the block
tree db; on failure return false without touching memory. On success
flush and only then assign the in-memory hashSyncCheckpoint. -/
def WriteSyncCheckpoint (hashCheckpoint : Hash) (store : Store)
    (st : CheckpointState) : Bool × Store × CheckpointState :=
  if !store.writeOk then
    (false, store, st)
  else
    (true, { store with writes := store.writes ++ [hashCheckpoint] },
      { st with hashSyncCheckpoint := hashCheckpoint })

/-- AcceptPendingSyncCheckpoint (lines 125-158). The fourth component
lists the messages relayed to peers (lines 150-155); connman models
whether g_connman is non-null. -/
def AcceptPendingSyncCheckpoint (cs : Chainstate) (store : Store)
    (st : CheckpointState) (connman : Bool) :
    Bool × Store × CheckpointState × List CSyncCheckpoint :=
  let havePendingCheckpoint :=
    decide (st.hashPendingCheckpoint ≠ 0) && cs.count st.hashPendingCheckpoint
  if !havePendingCheckpoint then
    (false, store, st, [])
  else
    match ValidateSyncCheckpoint st.hashPendingCheckpoint cs st with
    | (vres, st1) =>
      if vres ≠ .accept then
        (false, store,
          { st1 with hashPendingCheckpoint := 0,
                     checkpointMessagePending := CSyncCheckpoint.null }, [])
      else
        match cs.lookup st.hashPendingCheckpoint with
        | none => (false, store, st1, [])
        | some e =>
          if !(cs.contains st.hashPendingCheckpoint e) then
            (false, store, st1, [])
          else
            match WriteSyncCheckpoint st.hashPendingCheckpoint store st1 with
            | (false, store2, st2) => (false, store2, st2, [])
            | (true, store2, st2) =>
              let st3 :=
                { st2 with hashPendingCheckpoint := 0,
                           checkpointMessage := st2.checkpointMessagePending,
                           checkpointMessagePending := CSyncCheckpoint.null }
              if connman && !st3.checkpointMessage.IsNull then
                (true, store2, st3, [st3.checkpointMessage])
              else
                (true, store2, st3, [])

/-- The backward walk of AutoSelectSyncCheckpoint lines 164-166: while
pprev is non-null and nHeight + depth > tip height, step to pprev. Fuel
bounds the steps; the caller passes the tip height, which suffices on a
well-formed chain. A dangling parent hash (impossible for the C++
pointer) or exhausted fuel stops the walk. -/
def autoWalk (cs : Chainstate) (depth tipHeight : Int) :
    Nat → Hash × CBlockIndex → Hash
  | 0, (h, _) => h
  | fuel + 1, (h, e) =>
    match e.pprev with
    | none => h
    | some p =>
      if e.nHeight + depth > tipHeight then
        match cs.lookup p with
        | none => h
        | some pe => autoWalk cs depth tipHeight fuel (p, pe)
      else
        h

/-- AutoSelectSyncCheckpoint (lines 161-168); depth is the configured
-checkpointdepth value. none models the undefined behaviour of calling
Tip() on an empty chain. -/
def AutoSelectSyncCheckpoint (cs : Chainstate) (depth : Int) : Option Hash :=
  match cs.tip with
  | none => none
  | some tipHash =>
    match cs.lookup tipHash with
    | none => none
    | some tipEntry =>
      some (autoWalk cs depth tipEntry.nHeight tipEntry.nHeight.toNat
        (tipHash, tipEntry))

/-- The distinct exit paths of CheckSyncCheckpoint. In C++ the function
returns bool; assertFailed models a failed assert (process abort). -/
inductive CheckResult
  | ok
  | assertFailed
  | structureFailure
  | notDescendant
  | sameHeightDiffer
  | belowUnknown
deriving DecidableEq

/-- The backward walk of CheckSyncCheckpoint lines 188-191: while the
height is above the sync height and the active chain does not contain
the node, step to pprev; null pprev is a structure failure (none). -/
def checkWalk (cs : Chainstate) (syncHeight : Int) :
    Nat → Hash × CBlockIndex → Option (Hash × CBlockIndex)
  | 0, (h, e) =>
    if e.nHeight > syncHeight && !(cs.contains h e) then none else some (h, e)
  | fuel + 1, (h, e) =>
    if e.nHeight > syncHeight && !(cs.contains h e) then
      match e.pprev with
      | none => none
      | some p =>
        match cs.lookup p with
        | none => none
        | some pe => checkWalk cs syncHeight fuel (p, pe)
    else
      some (h, e)

/-- CheckSyncCheckpoint (lines 171-204), the enforcement gate applied to
a candidate block (hashBlock, pindexNew). -/
def CheckSyncCheckpoint (hashBlock : Hash) (pindexNew : CBlockIndex)
    (cs : Chainstate) (st : CheckpointState) : CheckResult :=
  if pindexNew.nHeight = 0 then
    .ok
  else
    match cs.lookup st.hashSyncCheckpoint with
    | none => .assertFailed
    | some pindexSync =>
      if !(cs.contains st.hashSyncCheckpoint pindexSync) then
        .assertFailed
      else
        let walked : Option CheckResult :=
          if pindexNew.nHeight > pindexSync.nHeight then
            match checkWalk cs pindexSync.nHeight
                (pindexNew.nHeight - pindexSync.nHeight).toNat
                (hashBlock, pindexNew) with
            | none => some .structureFailure
            | some (h, e) =>
              if !(cs.contains h e) then some .notDescendant else none
          else
            none
        match walked with
        | some r => r
        | none =>
          if pindexNew.nHeight = pindexSync.nHeight ∧
              hashBlock ≠ st.hashSyncCheckpoint then
            .sameHeightDiffer
          else if pindexNew.nHeight < pindexSync.nHeight ∧
              !(cs.count hashBlock) then
            .belowUnknown
          else
            .ok

/-- The distinct exit paths of CSyncCheckpoint::ProcessSyncCheckpoint.
In C++ the function returns bool: committed is the sole true return;
every other constructor is a false return from a distinct path
(badSignature line 305, unknownBlock line 311, validationFailed line
315 tagged with the validator's own exit, deferred line 326, writeFailed
line 330). -/
inductive ProcessResult
  | badSignature
  | unknownBlock
  | validationFailed (r : ValidateResult)
  | deferred
  | writeFailed
  | committed
deriving DecidableEq

/-- The full observable outcome of one ProcessSyncCheckpoint call:
result code, store, checkpoint state, and the messages relayed to peers
(ProcessSyncCheckpoint itself performs no relay, so relays is empty on
every path). -/
structure ProcessOutput where
  result : ProcessResult
  store : Store
  state : CheckpointState
  relays : List CSyncCheckpoint
deriving DecidableEq

/-- CSyncCheckpoint::ProcessSyncCheckpoint (lines 302-337). -/
def CSyncCheckpoint.ProcessSyncCheckpoint (msg : CSyncCheckpoint)
    (cs : Chainstate) (store : Store) (st : CheckpointState) : ProcessOutput :=
  if !msg.sigOk then
    ⟨.badSignature, store, st, []⟩
  else
    match cs.lookup msg.hashCheckpoint with
    | none => ⟨.unknownBlock, store, st, []⟩
    | some e =>
      match ValidateSyncCheckpoint msg.hashCheckpoint cs st with
      | (vres, st1) =>
        if vres ≠ .accept then
          ⟨.validationFailed vres, store, st1, []⟩
        else if !(cs.contains msg.hashCheckpoint e) then
          ⟨.deferred, store,
            { st1 with hashPendingCheckpoint := msg.hashCheckpoint,
                       checkpointMessagePending := msg }, []⟩
        else
          match WriteSyncCheckpoint msg.hashCheckpoint store st1 with
          | (false, store2, st2) => ⟨.writeFailed, store2, st2, []⟩
          | (true, store2, st2) =>
            ⟨.committed, store2,
              { st2 with checkpointMessage := msg,
                         hashPendingCheckpoint := 0,
                         checkpointMessagePending := CSyncCheckpoint.null }, []⟩

/-- Iterated re-processing of the same message (for the idempotence
property): feed the store and state produced by one call into the next. -/
def processIterate (msg : CSyncCheckpoint) (cs : Chainstate) :
    Nat → Store × CheckpointState → Store × CheckpointState
  | 0, s => s
  | n + 1, (store, st) =>
    let out := msg.ProcessSyncCheckpoint cs store st
    processIterate msg cs n (out.store, out.state)

/-- The k-step ancestor of a block along pprev links, resolving each
parent hash in the block index. -/
def ancestorK (cs : Chainstate) : Nat → Hash × CBlockIndex → Option (Hash × CBlockIndex)
  | 0, pr => some pr
  | k + 1, (_, e) =>
    match e.pprev with
    | none => none
    | some p =>
      match cs.lookup p with
      | none => none
      | some pe => ancestorK cs k (p, pe)

/-- A small concrete chain used to instantiate theorems: active chain
10-11-12, a fork 20-21 off the genesis block 10, and a block 13 that
extends the active tip but is not yet connected to the active chain. -/
def exChain : Chainstate :=
  { blockIndex := [(10, ⟨0, none⟩), (11, ⟨1, some 10⟩), (12, ⟨2, some 11⟩),
                   (13, ⟨3, some 12⟩), (20, ⟨1, some 10⟩), (21, ⟨2, some 20⟩)],
    chain := [10, 11, 12] }

/-- A concrete checkpoint state whose active checkpoint is block 11. -/
def exSt : CheckpointState := ⟨11, 0, .null, .null, 0, ""⟩

/-- A concrete checkpoint state with block 12 pending. -/
def exStPending : CheckpointState := ⟨11, 12, .null, ⟨12, true⟩, 0, ""⟩

theorem Chainstate.lookup_mem (cs : Chainstate) (h : Hash) (e : CBlockIndex)
    (hl : cs.lookup h = some e) : (h, e) ∈ cs.blockIndex := by
  unfold Chainstate.lookup at hl
  cases hf : cs.blockIndex.find? (fun p => p.1 == h) with
  | none => rw [hf] at hl; simp at hl
  | some pr =>
    rw [hf] at hl
    have hmem := List.mem_of_find?_eq_some hf
    have hpred := List.find?_some hf
    have h1 : pr.1 = h := by simpa using hpred
    have h2 : pr.2 = e := by simpa using hl
    have : pr = (h, e) := by
      cases pr
      simp_all
    rwa [this] at hmem

theorem Chainstate.wfIndex_entry (cs : Chainstate) (hwf : cs.wfIndex = true)
    (h : Hash) (e : CBlockIndex) (hl : cs.lookup h = some e) :
    cs.entryOk (h, e) = true := by
  unfold Chainstate.wfIndex at hwf
  exact List.all_eq_true.mp hwf _ (cs.lookup_mem h e hl)

/-- On a well-formed index, the parent link of an entry above height 0
resolves to an entry exactly one height below. -/
theorem Chainstate.pprev_step (cs : Chainstate) (hwf : cs.wfIndex = true)
    (h : Hash) (e : CBlockIndex) (hl : cs.lookup h = some e)
    (hpos : 0 < e.nHeight) :
    ∃ p pe, e.pprev = some p ∧ cs.lookup p = some pe ∧
      pe.nHeight = e.nHeight - 1 := by
  have hok := cs.wfIndex_entry hwf h e hl
  cases hp : e.pprev with
  | none =>
    simp [Chainstate.entryOk, hp] at hok
    omega
  | some p =>
    simp [Chainstate.entryOk, hp] at hok
    cases hpe : cs.lookup p with
    | none => rw [hpe] at hok; simp at hok
    | some pe =>
      rw [hpe] at hok
      simp at hok
      exact ⟨p, pe, rfl, hpe, hok⟩

/-- The accept path of ValidateSyncCheckpoint does not modify the
checkpoint state. -/
theorem ValidateSyncCheckpoint_accept_snd (c : Hash) (cs : Chainstate)
    (st : CheckpointState)
    (h : (ValidateSyncCheckpoint c cs st).1 = ValidateResult.accept) :
    ValidateSyncCheckpoint c cs st = (ValidateResult.accept, st) := by
  cases h1 : cs.lookup st.hashSyncCheckpoint with
  | none => unfold ValidateSyncCheckpoint at h; rw [h1] at h; simp at h
  | some eS =>
    cases h2 : cs.lookup c with
    | none => unfold ValidateSyncCheckpoint at h; rw [h1, h2] at h; simp at h
    | some eC =>
      by_cases hle : eC.nHeight ≤ eS.nHeight
      · by_cases hc : cs.contains c eC = true
        · unfold ValidateSyncCheckpoint at h
          rw [h1, h2] at h
          simp [hle, hc] at h
        · unfold ValidateSyncCheckpoint at h
          rw [h1, h2] at h
          simp [hle, hc] at h
      · cases h3 : traceBack cs eS.nHeight (eC.nHeight - eS.nHeight).toNat (c, eC) with
        | none =>
          unfold ValidateSyncCheckpoint at h
          rw [h1, h2] at h
          simp [hle, h3] at h
        | some pr =>
          obtain ⟨hh, ee⟩ := pr
          by_cases hne : hh = st.hashSyncCheckpoint
          · unfold ValidateSyncCheckpoint
            rw [h1, h2]
            simp [hle, h3, hne]
          · unfold ValidateSyncCheckpoint at h
            rw [h1, h2] at h
            simp [hle, h3, hne] at h

/-- C1: with both the active checkpoint and the candidate resolvable and
the candidate at a height at or below the active height,
ValidateSyncCheckpoint rejects with conflicting and records the
candidate in hashInvalidCheckpoint exactly when the candidate is not on
the active chain, and ignores the candidate (state untouched) when it
is. -/
theorem validate_older_checkpoint_conflict_iff_not_contained
    (cs : Chainstate) (st : CheckpointState) (cand : Hash)
    (eA eC : CBlockIndex)
    (hA : cs.lookup st.hashSyncCheckpoint = some eA)
    (hC : cs.lookup cand = some eC)
    (hle : eC.nHeight ≤ eA.nHeight) :
    (cs.contains cand eC = false →
      ValidateSyncCheckpoint cand cs st =
        (.conflicting, { st with hashInvalidCheckpoint := cand })) ∧
    (cs.contains cand eC = true →
      ValidateSyncCheckpoint cand cs st = (.ignore, st)) := by
  constructor <;> intro hc <;> unfold ValidateSyncCheckpoint <;>
    simp [hA, hC, hle, hc]

/-- Witness for C1 on the concrete chain: block 20 sits at the active
checkpoint height but off the active chain, so it is rejected as
conflicting and recorded as invalid. -/
theorem validate_older_checkpoint_witness :
    ValidateSyncCheckpoint 20 exChain exSt =
      (.conflicting, { exSt with hashInvalidCheckpoint := 20 }) :=
  (validate_older_checkpoint_conflict_iff_not_contained exChain exSt 20
    ⟨1, some 10⟩ ⟨1, some 10⟩ (by decide) (by decide) (by decide)).1 (by decide)

/-- C5: WriteSyncCheckpoint leaves both the store and the in-memory
active checkpoint untouched and reports failure when the db write
fails, and appends exactly one write and only then updates the
in-memory value when it succeeds. -/
theorem writeSyncCheckpoint_failure_preserves_memory
    (h : Hash) (store : Store) (st : CheckpointState) :
    (store.writeOk = false →
      WriteSyncCheckpoint h store st = (false, store, st)) ∧
    (store.writeOk = true →
      WriteSyncCheckpoint h store st =
        (true, { store with writes := store.writes ++ [h] },
          { st with hashSyncCheckpoint := h })) := by
  constructor <;> intro hw <;> simp [WriteSyncCheckpoint, hw]

/-- Witness for C5: a failing store write leaves everything unchanged. -/
theorem writeSyncCheckpoint_failure_witness :
    WriteSyncCheckpoint 12 ⟨[], false⟩ exSt = (false, ⟨[], false⟩, exSt) :=
  (writeSyncCheckpoint_failure_preserves_memory 12 ⟨[], false⟩ exSt).1 rfl

/-- C6: an accepted checkpoint whose block is not on the active chain is
stored as pending (hash and message) and deferred, with the store and
the active checkpoint untouched. -/
theorem processSyncCheckpoint_deferred
    (msg : CSyncCheckpoint) (cs : Chainstate) (store : Store)
    (st : CheckpointState) (e : CBlockIndex)
    (hsig : msg.sigOk = true)
    (he : cs.lookup msg.hashCheckpoint = some e)
    (hv : (ValidateSyncCheckpoint msg.hashCheckpoint cs st).1 = .accept)
    (hc : cs.contains msg.hashCheckpoint e = false) :
    msg.ProcessSyncCheckpoint cs store st =
      ⟨.deferred, store,
        { st with hashPendingCheckpoint := msg.hashCheckpoint,
                  checkpointMessagePending := msg }, []⟩ := by
  have hv2 := ValidateSyncCheckpoint_accept_snd _ _ _ hv
  unfold CSyncCheckpoint.ProcessSyncCheckpoint
  simp [hsig, he, hv2, hc]

/-- Witness for C6: block 13 extends the active tip but is not yet
connected, so its checkpoint message is deferred as pending. -/
theorem processSyncCheckpoint_deferred_witness :
    CSyncCheckpoint.ProcessSyncCheckpoint ⟨13, true⟩ exChain ⟨[], true⟩ exSt =
      ⟨.deferred, ⟨[], true⟩,
        { exSt with hashPendingCheckpoint := 13,
                    checkpointMessagePending := ⟨13, true⟩ }, []⟩ :=
  processSyncCheckpoint_deferred ⟨13, true⟩ exChain ⟨[], true⟩ exSt
    ⟨3, some 12⟩ rfl (by decide) (by decide) (by decide)

/-- On a well-formed index, the k-step ancestor of a resolvable block
that stays at or above height 0 exists, resolves, and sits exactly k
heights below the block. -/
theorem ancestorK_wf (cs : Chainstate) (hwf : cs.wfIndex = true) :
    ∀ (k : Nat) h e, cs.lookup h = some e → (k : Int) ≤ e.nHeight →
      ∃ h' e', ancestorK cs k (h, e) = some (h', e') ∧
        cs.lookup h' = some e' ∧ e'.nHeight = e.nHeight - k := by
  intro k
  induction k with
  | zero =>
    intro h e hl _
    exact ⟨h, e, rfl, hl, by omega⟩
  | succ k ih =>
    intro h e hl hk
    obtain ⟨p, pe, hp, hpe, hh⟩ := cs.pprev_step hwf h e hl (by omega)
    obtain ⟨h', e', ha, hl', hh'⟩ := ih p pe hpe (by omega)
    refine ⟨h', e', ?_, hl', by omega⟩
    simp [ancestorK, hp, hpe]
    exact ha

/-- On a well-formed index, the backward walk of ValidateSyncCheckpoint
with fuel equal to the height difference is exactly the iterated
parent and lands precisely at the target height. -/
theorem traceBack_wf (cs : Chainstate) (target : Int) (hwf : cs.wfIndex = true)
    (h0 : 0 ≤ target) :
    ∀ fuel h e, cs.lookup h = some e → target ≤ e.nHeight →
      (e.nHeight - target).toNat = fuel →
      traceBack cs target fuel (h, e) = ancestorK cs fuel (h, e) ∧
      ∃ h' e', ancestorK cs fuel (h, e) = some (h', e') ∧
        cs.lookup h' = some e' ∧ e'.nHeight = target := by
  intro fuel
  induction fuel with
  | zero =>
    intro h e hl hge hfuel
    have heq : e.nHeight = target := by omega
    constructor
    · simp [traceBack, ancestorK, heq]
    · exact ⟨h, e, rfl, hl, heq⟩
  | succ fuel ih =>
    intro h e hl hge hfuel
    have hgt : target < e.nHeight := by omega
    obtain ⟨p, pe, hp, hpe, hh⟩ := cs.pprev_step hwf h e hl (by omega)
    have hstep : traceBack cs target (fuel + 1) (h, e) =
        traceBack cs target fuel (p, pe) := by
      simp [traceBack, hp, hpe, (show ¬ e.nHeight ≤ target by omega)]
    have hstep2 : ancestorK cs (fuel + 1) (h, e) = ancestorK cs fuel (p, pe) := by
      simp [ancestorK, hp, hpe]
    obtain ⟨ha, hex⟩ := ih p pe hpe (by omega) (by omega)
    exact ⟨by rw [hstep, hstep2, ha], by rw [hstep2]; exact hex⟩

/-- C2: for a candidate strictly above the active checkpoint, the
validator walks parent links down to the active height: if the walk
runs off the chain it rejects with a structure failure; otherwise it
accepts exactly when the block found equals the active checkpoint hash,
and records the candidate as invalid with a not-descendant rejection
when it differs. On a well-formed index the walk is exactly the
height-difference-step ancestor and lands at the active height. -/
theorem validate_newer_checkpoint_descendant
    (cs : Chainstate) (st : CheckpointState) (cand : Hash)
    (eA eC : CBlockIndex)
    (hA : cs.lookup st.hashSyncCheckpoint = some eA)
    (hC : cs.lookup cand = some eC)
    (hgt : eA.nHeight < eC.nHeight) :
    (traceBack cs eA.nHeight (eC.nHeight - eA.nHeight).toNat (cand, eC) = none →
      ValidateSyncCheckpoint cand cs st = (.structureFailure, st)) ∧
    (∀ h' e',
      traceBack cs eA.nHeight (eC.nHeight - eA.nHeight).toNat (cand, eC) =
        some (h', e') →
      (h' = st.hashSyncCheckpoint →
        ValidateSyncCheckpoint cand cs st = (.accept, st)) ∧
      (h' ≠ st.hashSyncCheckpoint →
        ValidateSyncCheckpoint cand cs st =
          (.notDescendant, { st with hashInvalidCheckpoint := cand }))) ∧
    (cs.wfIndex = true → 0 ≤ eA.nHeight →
      ∃ h' e',
        traceBack cs eA.nHeight (eC.nHeight - eA.nHeight).toNat (cand, eC) =
          some (h', e') ∧
        ancestorK cs (eC.nHeight - eA.nHeight).toNat (cand, eC) = some (h', e') ∧
        cs.lookup h' = some e' ∧ e'.nHeight = eA.nHeight) := by
  refine ⟨?_, ?_, ?_⟩
  · intro h3
    unfold ValidateSyncCheckpoint
    rw [hA, hC]
    simp [(show ¬ eC.nHeight ≤ eA.nHeight by omega), h3]
  · intro h' e' h3
    constructor <;> intro hne <;> unfold ValidateSyncCheckpoint <;> rw [hA, hC] <;>
      simp [(show ¬ eC.nHeight ≤ eA.nHeight by omega), h3, hne]
  · intro hwf h0
    obtain ⟨heq, h', e', ha, hl', hh'⟩ :=
      traceBack_wf cs eA.nHeight hwf h0 (eC.nHeight - eA.nHeight).toNat cand eC hC
        (by omega) rfl
    exact ⟨h', e', by rw [heq, ha], ha, hl', hh'⟩

/-- Witness for C2: block 12 is two above the genesis and one above the
active checkpoint 11; its ancestor at the active height is 11 itself,
so validation accepts. -/
theorem validate_newer_checkpoint_witness :
    ValidateSyncCheckpoint 12 exChain exSt = (.accept, exSt) :=
  ((validate_newer_checkpoint_descendant exChain exSt 12 ⟨1, some 10⟩ ⟨2, some 11⟩
      (by decide) (by decide) (by decide)).2.1 11 ⟨1, some 10⟩ (by decide)).1
    (by decide)

/-- C9: re-processing a checkpoint message that is already the active
checkpoint (its block contained in the active chain) is a no-op: the
call reports the stale/ignore exit and leaves store and state
unchanged, for any number of repetitions. -/
theorem processSyncCheckpoint_idempotent_on_committed
    (msg : CSyncCheckpoint) (cs : Chainstate) (store : Store)
    (st : CheckpointState) (e : CBlockIndex)
    (hsig : msg.sigOk = true)
    (hact : st.hashSyncCheckpoint = msg.hashCheckpoint)
    (he : cs.lookup msg.hashCheckpoint = some e)
    (hc : cs.contains msg.hashCheckpoint e = true) :
    msg.ProcessSyncCheckpoint cs store st =
      ⟨.validationFailed .ignore, store, st, []⟩ ∧
    ∀ n, processIterate msg cs n (store, st) = (store, st) := by
  have hv : ValidateSyncCheckpoint msg.hashCheckpoint cs st = (.ignore, st) := by
    unfold ValidateSyncCheckpoint
    rw [hact, he]
    simp [hc]
  have h1 : msg.ProcessSyncCheckpoint cs store st =
      ⟨.validationFailed .ignore, store, st, []⟩ := by
    unfold CSyncCheckpoint.ProcessSyncCheckpoint
    simp [hsig, he, hv]
  refine ⟨h1, ?_⟩
  intro n
  induction n with
  | zero => rfl
  | succ n ih =>
    unfold processIterate
    rw [h1]
    simpa using ih

/-- Witness for C9: message 11 matches the active checkpoint 11, which
is on the active chain; processing it twice is a no-op both times. -/
theorem processSyncCheckpoint_idempotent_witness :
    CSyncCheckpoint.ProcessSyncCheckpoint ⟨11, true⟩ exChain ⟨[], true⟩ exSt =
      ⟨.validationFailed .ignore, ⟨[], true⟩, exSt, []⟩ ∧
    processIterate ⟨11, true⟩ exChain 2 (⟨[], true⟩, exSt) = (⟨[], true⟩, exSt) :=
  ⟨(processSyncCheckpoint_idempotent_on_committed ⟨11, true⟩ exChain ⟨[], true⟩ exSt
      ⟨1, some 10⟩ rfl rfl (by decide) (by decide)).1,
   (processSyncCheckpoint_idempotent_on_committed ⟨11, true⟩ exChain ⟨[], true⟩ exSt
      ⟨1, some 10⟩ rfl rfl (by decide) (by decide)).2 2⟩

/-- C3 counterexample: on the concrete chain, block 12 is a valid
descendant checkpoint on the active chain; ProcessSyncCheckpoint
commits it but relays no message to any peer, contradicting the claim
that the commit path relays the message. -/
theorem processSyncCheckpoint_commit_no_relay_counterexample :
    (CSyncCheckpoint.ProcessSyncCheckpoint ⟨12, true⟩ exChain ⟨[], true⟩ exSt).result
        = .committed ∧
    (CSyncCheckpoint.ProcessSyncCheckpoint ⟨12, true⟩ exChain ⟨[], true⟩ exSt).relays
        = [] := by decide

/-- C3 as amended: a verified, known, consistency-accepted checkpoint
message whose block is on the active chain and whose store write
succeeds is committed: the hash is persisted, the active message is set
to the message, pending hash and message are cleared, and the active
checkpoint becomes the message's hash; no relay is performed by
ProcessSyncCheckpoint itself. -/
theorem processSyncCheckpoint_commit
    (msg : CSyncCheckpoint) (cs : Chainstate) (store : Store)
    (st : CheckpointState) (e : CBlockIndex)
    (hsig : msg.sigOk = true)
    (he : cs.lookup msg.hashCheckpoint = some e)
    (hv : (ValidateSyncCheckpoint msg.hashCheckpoint cs st).1 = .accept)
    (hc : cs.contains msg.hashCheckpoint e = true)
    (hw : store.writeOk = true) :
    msg.ProcessSyncCheckpoint cs store st =
      ⟨.committed, { store with writes := store.writes ++ [msg.hashCheckpoint] },
        { st with hashSyncCheckpoint := msg.hashCheckpoint,
                  checkpointMessage := msg,
                  hashPendingCheckpoint := 0,
                  checkpointMessagePending := CSyncCheckpoint.null }, []⟩ := by
  have hv2 := ValidateSyncCheckpoint_accept_snd _ _ _ hv
  unfold CSyncCheckpoint.ProcessSyncCheckpoint
  simp [hsig, he, hv2, hc, WriteSyncCheckpoint, hw]

/-- Witness for the amended C3: committing checkpoint 12 on the
concrete chain. -/
theorem processSyncCheckpoint_commit_witness :
    CSyncCheckpoint.ProcessSyncCheckpoint ⟨12, true⟩ exChain ⟨[], true⟩ exSt =
      ⟨.committed, ⟨[12], true⟩,
        { exSt with hashSyncCheckpoint := 12,
                    checkpointMessage := ⟨12, true⟩,
                    hashPendingCheckpoint := 0,
                    checkpointMessagePending := CSyncCheckpoint.null }, []⟩ :=
  processSyncCheckpoint_commit ⟨12, true⟩ exChain ⟨[], true⟩ exSt ⟨2, some 11⟩
    rfl (by decide) (by decide) (by decide) rfl

/-- C8 counterexample: on the concrete chain, checkpoint 20 conflicts
with the active checkpoint 11; processing it rejects with conflicting
and records the invalid hash, but the warning state is left exactly as
it was - no warning string is recorded anywhere in the file. -/
theorem processSyncCheckpoint_conflict_warning_counterexample :
    (CSyncCheckpoint.ProcessSyncCheckpoint ⟨20, true⟩ exChain ⟨[], true⟩ exSt).result
        = .validationFailed .conflicting ∧
    (CSyncCheckpoint.ProcessSyncCheckpoint ⟨20, true⟩ exChain
        ⟨[], true⟩ exSt).state.hashInvalidCheckpoint = 20 ∧
    (CSyncCheckpoint.ProcessSyncCheckpoint ⟨20, true⟩ exChain
        ⟨[], true⟩ exSt).state.strCheckpointWarning = exSt.strCheckpointWarning := by
  decide

/-- C8 as amended: when consistency validation rejects a message as
conflicting or not-descendant, ProcessSyncCheckpoint records the
candidate in hashInvalidCheckpoint and otherwise leaves the state - in
particular strCheckpointWarning - unchanged; the conflict is only
logged, never recorded in the warning state. -/
theorem processSyncCheckpoint_conflict_no_warning
    (msg : CSyncCheckpoint) (cs : Chainstate) (store : Store)
    (st : CheckpointState) (eA eC : CBlockIndex)
    (hsig : msg.sigOk = true)
    (hA : cs.lookup st.hashSyncCheckpoint = some eA)
    (hC : cs.lookup msg.hashCheckpoint = some eC) :
    (eC.nHeight ≤ eA.nHeight → cs.contains msg.hashCheckpoint eC = false →
      msg.ProcessSyncCheckpoint cs store st =
        ⟨.validationFailed .conflicting, store,
          { st with hashInvalidCheckpoint := msg.hashCheckpoint }, []⟩) ∧
    (∀ h' e', eA.nHeight < eC.nHeight →
      traceBack cs eA.nHeight (eC.nHeight - eA.nHeight).toNat
          (msg.hashCheckpoint, eC) = some (h', e') →
      h' ≠ st.hashSyncCheckpoint →
      msg.ProcessSyncCheckpoint cs store st =
        ⟨.validationFailed .notDescendant, store,
          { st with hashInvalidCheckpoint := msg.hashCheckpoint }, []⟩) := by
  constructor
  · intro hle hc
    have hv : ValidateSyncCheckpoint msg.hashCheckpoint cs st =
        (.conflicting, { st with hashInvalidCheckpoint := msg.hashCheckpoint }) := by
      unfold ValidateSyncCheckpoint
      rw [hA, hC]
      simp [hle, hc]
    unfold CSyncCheckpoint.ProcessSyncCheckpoint
    simp [hsig, hC, hv]
  · intro h' e' hgt h3 hne
    have hv : ValidateSyncCheckpoint msg.hashCheckpoint cs st =
        (.notDescendant, { st with hashInvalidCheckpoint := msg.hashCheckpoint }) := by
      unfold ValidateSyncCheckpoint
      rw [hA, hC]
      simp [(show ¬ eC.nHeight ≤ eA.nHeight by omega), h3, hne]
    unfold CSyncCheckpoint.ProcessSyncCheckpoint
    simp [hsig, hC, hv]

/-- Witness for the amended C8: rejecting the conflicting checkpoint 20
updates the invalid diagnostic and nothing else. -/
theorem processSyncCheckpoint_conflict_no_warning_witness :
    CSyncCheckpoint.ProcessSyncCheckpoint ⟨20, true⟩ exChain ⟨[], true⟩ exSt =
      ⟨.validationFailed .conflicting, ⟨[], true⟩,
        { exSt with hashInvalidCheckpoint := 20 }, []⟩ :=
  (processSyncCheckpoint_conflict_no_warning ⟨20, true⟩ exChain ⟨[], true⟩ exSt
      ⟨1, some 10⟩ ⟨1, some 10⟩ rfl (by decide) (by decide)).1 (by decide) (by decide)

/-- C7: with a pending checkpoint present and resolvable, if it still
validates, is on the active chain, the store write succeeds, the
connection manager exists and the pending message is non-null, then
AcceptPendingSyncCheckpoint commits it: exactly one store write of the
pending hash, the active message becomes the pending message, pending
hash and message are cleared, and that message is relayed. If
validation no longer accepts the pending hash, the pending checkpoint
is dropped and cleared with no store write. -/
theorem acceptPendingSyncCheckpoint_commit_or_drop
    (cs : Chainstate) (store : Store) (st : CheckpointState) (e : CBlockIndex)
    (hp : st.hashPendingCheckpoint ≠ 0)
    (he : cs.lookup st.hashPendingCheckpoint = some e) :
    ((ValidateSyncCheckpoint st.hashPendingCheckpoint cs st).1 = .accept →
      cs.contains st.hashPendingCheckpoint e = true →
      store.writeOk = true →
      st.checkpointMessagePending.hashCheckpoint ≠ 0 →
      AcceptPendingSyncCheckpoint cs store st true =
        (true, { store with writes := store.writes ++ [st.hashPendingCheckpoint] },
          { st with hashSyncCheckpoint := st.hashPendingCheckpoint,
                    hashPendingCheckpoint := 0,
                    checkpointMessage := st.checkpointMessagePending,
                    checkpointMessagePending := CSyncCheckpoint.null },
          [st.checkpointMessagePending])) ∧
    (∀ vres st1,
      ValidateSyncCheckpoint st.hashPendingCheckpoint cs st = (vres, st1) →
      vres ≠ .accept →
      AcceptPendingSyncCheckpoint cs store st true =
        (false, store,
          { st1 with hashPendingCheckpoint := 0,
                     checkpointMessagePending := CSyncCheckpoint.null }, [])) := by
  have hcount : cs.count st.hashPendingCheckpoint = true := by
    simp [Chainstate.count, he]
  constructor
  · intro hv hc hw hnn
    have hv2 := ValidateSyncCheckpoint_accept_snd _ _ _ hv
    unfold AcceptPendingSyncCheckpoint
    simp [hp, hcount, he, hv2, hc, WriteSyncCheckpoint, hw,
      CSyncCheckpoint.IsNull, hnn]
  · intro vres st1 hv hne
    unfold AcceptPendingSyncCheckpoint
    simp [hp, hcount, hv, hne]

/-- Witness for C7: the pending checkpoint 12 has connected to the
active chain; accepting it commits, writes once, and relays. -/
theorem acceptPendingSyncCheckpoint_witness :
    AcceptPendingSyncCheckpoint exChain ⟨[], true⟩ exStPending true =
      (true, ⟨[12], true⟩,
        { exStPending with hashSyncCheckpoint := 12,
                           hashPendingCheckpoint := 0,
                           checkpointMessage := ⟨12, true⟩,
                           checkpointMessagePending := CSyncCheckpoint.null },
        [⟨12, true⟩]) :=
  (acceptPendingSyncCheckpoint_commit_or_drop exChain ⟨[], true⟩ exStPending
      ⟨2, some 11⟩ (by decide) (by decide)).1 (by decide) (by decide) rfl (by decide)

/-- On a well-formed index, the early-stopping walk of
CheckSyncCheckpoint with fuel equal to the height difference always
lands on a block, and the landing block is on the active chain exactly
when some ancestor within the walked range is. -/
theorem checkWalk_wf (cs : Chainstate) (syncHeight : Int)
    (hwf : cs.wfIndex = true) :
    ∀ fuel h e, cs.lookup h = some e → syncHeight ≤ e.nHeight →
      0 ≤ syncHeight → (e.nHeight - syncHeight).toNat = fuel →
      ∃ h' e', checkWalk cs syncHeight fuel (h, e) = some (h', e') ∧
        (cs.contains h' e' = true ↔
          ∃ k, k ≤ fuel ∧ ∃ q, ancestorK cs k (h, e) = some q ∧
            cs.contains q.1 q.2 = true) := by
  intro fuel
  induction fuel with
  | zero =>
    intro h e hl hge h0 hfuel
    have heq : e.nHeight = syncHeight := by omega
    refine ⟨h, e, by simp [checkWalk, heq], ?_⟩
    constructor
    · intro hc
      exact ⟨0, Nat.le_refl 0, (h, e), rfl, hc⟩
    · rintro ⟨k, hk, q, hq, hcq⟩
      have hk0 : k = 0 := Nat.le_zero.mp hk
      subst hk0
      simp [ancestorK] at hq
      rw [← hq] at hcq
      exact hcq
  | succ fuel ih =>
    intro h e hl hge h0 hfuel
    have hgt : syncHeight < e.nHeight := by omega
    by_cases hc : cs.contains h e = true
    · refine ⟨h, e, by simp [checkWalk, hc], ?_⟩
      constructor
      · intro hcc
        exact ⟨0, Nat.zero_le _, (h, e), rfl, hcc⟩
      · intro _
        exact hc
    · have hc0 : cs.contains h e = false := by simpa using hc
      obtain ⟨p, pe, hpp, hpe, hh⟩ := cs.pprev_step hwf h e hl (by omega)
      have hstep : checkWalk cs syncHeight (fuel + 1) (h, e) =
          checkWalk cs syncHeight fuel (p, pe) := by
        simp [checkWalk, hgt, hc0, hpp, hpe]
      obtain ⟨h', e', hw', hiff⟩ := ih p pe hpe (by omega) h0 (by omega)
      refine ⟨h', e', by rw [hstep]; exact hw', ?_⟩
      rw [hiff]
      constructor
      · rintro ⟨k, hk, q, hq, hcq⟩
        refine ⟨k + 1, by omega, q, ?_, hcq⟩
        simpa [ancestorK, hpp, hpe] using hq
      · rintro ⟨k, hk, q, hq, hcq⟩
        cases k with
        | zero =>
          simp [ancestorK] at hq
          rw [← hq] at hcq
          rw [hcq] at hc0
          simp at hc0
        | succ k =>
          have hq' : ancestorK cs k (p, pe) = some q := by
            simpa [ancestorK, hpp, hpe] using hq
          exact ⟨k, by omega, q, hq', hcq⟩

/-- C4: for a candidate strictly above the active checkpoint (which
resolves and is on the active chain), on a well-formed index the
enforcement gate accepts the candidate exactly when some ancestor of
the candidate (the candidate itself included) within the height range
down to the checkpoint height lies on the active chain; otherwise it
fails with the not-descendant error. Every ancestor in that range sits
at or above the checkpoint height. -/
theorem checkSyncCheckpoint_accepts_iff_ancestor_on_chain
    (cs : Chainstate) (st : CheckpointState) (hashBlock : Hash)
    (e eS : CBlockIndex)
    (hwf : cs.wfIndex = true)
    (hE : cs.lookup hashBlock = some e)
    (hS : cs.lookup st.hashSyncCheckpoint = some eS)
    (hcs : cs.contains st.hashSyncCheckpoint eS = true)
    (hgt : eS.nHeight < e.nHeight) :
    (CheckSyncCheckpoint hashBlock e cs st = .ok ↔
      ∃ k, k ≤ (e.nHeight - eS.nHeight).toNat ∧
        ∃ q, ancestorK cs k (hashBlock, e) = some q ∧
          cs.contains q.1 q.2 = true) ∧
    (¬ (∃ k, k ≤ (e.nHeight - eS.nHeight).toNat ∧
        ∃ q, ancestorK cs k (hashBlock, e) = some q ∧
          cs.contains q.1 q.2 = true) →
      CheckSyncCheckpoint hashBlock e cs st = .notDescendant) ∧
    (∀ k, k ≤ (e.nHeight - eS.nHeight).toNat →
      ∀ q, ancestorK cs k (hashBlock, e) = some q →
        eS.nHeight ≤ q.2.nHeight) := by
  have hS0 : 0 ≤ eS.nHeight := by
    unfold Chainstate.contains at hcs
    simp at hcs
    exact hcs.1
  obtain ⟨h', e', hwk, hiff⟩ := checkWalk_wf cs eS.nHeight hwf
    (e.nHeight - eS.nHeight).toNat hashBlock e hE (by omega) hS0 rfl
  have hheights : ∀ k, k ≤ (e.nHeight - eS.nHeight).toNat →
      ∀ q, ancestorK cs k (hashBlock, e) = some q →
        eS.nHeight ≤ q.2.nHeight := by
    intro k hk q hq
    obtain ⟨h2, e2, ha2, _, hh2⟩ :=
      ancestorK_wf cs hwf k hashBlock e hE (by omega)
    rw [ha2] at hq
    simp at hq
    rw [← hq]
    simp
    omega
  by_cases hc' : cs.contains h' e' = true
  · have hok : CheckSyncCheckpoint hashBlock e cs st = .ok := by
      unfold CheckSyncCheckpoint
      rw [hS]
      simp [(show ¬ e.nHeight = 0 by omega), hcs, hgt, hwk, hc',
        (show ¬ e.nHeight < eS.nHeight by omega),
        (show ¬ e.nHeight = eS.nHeight by omega)]
    refine ⟨?_, ?_, hheights⟩
    · rw [hok]
      exact ⟨fun _ => hiff.mp hc', fun _ => rfl⟩
    · intro hne
      exact absurd (hiff.mp hc') hne
  · have hc0 : cs.contains h' e' = false := by simpa using hc'
    have hnd : CheckSyncCheckpoint hashBlock e cs st = .notDescendant := by
      unfold CheckSyncCheckpoint
      rw [hS]
      simp [(show ¬ e.nHeight = 0 by omega), hcs, hgt, hwk, hc0]
    refine ⟨?_, fun _ => hnd, hheights⟩
    rw [hnd]
    constructor
    · intro hcontra
      exact absurd hcontra (by simp)
    · intro hex
      rw [hiff.mpr hex] at hc0
      simp at hc0

/-- Witness for C4: block 12 is itself on the active chain, so the
enforcement gate accepts it. -/
theorem checkSyncCheckpoint_witness :
    CheckSyncCheckpoint 12 ⟨2, some 11⟩ exChain exSt = .ok :=
  ((checkSyncCheckpoint_accepts_iff_ancestor_on_chain exChain exSt 12
      ⟨2, some 11⟩ ⟨1, some 10⟩ (by decide) (by decide) (by decide) (by decide)
      (by decide)).1).mpr
    ⟨0, by decide, (12, ⟨2, some 11⟩), rfl, by decide⟩

/-- Unpacking wfChain at one position: the hash at position i resolves
to an entry of height i whose parent link is null at position 0 and the
chain element at position i-1 otherwise. -/
theorem Chainstate.wfChain_spec (cs : Chainstate) (hwf : cs.wfChain = true)
    (i : Nat) (h : Hash) (hi : cs.chain[i]? = some h) :
    ∃ e, cs.lookup h = some e ∧ e.nHeight = (i : Int) ∧
      (i = 0 → e.pprev = none) ∧ (i ≠ 0 → e.pprev = cs.chain[i-1]?) := by
  have hilen : i < cs.chain.length := by
    rcases Nat.lt_or_ge i cs.chain.length with hlt | hge
    · exact hlt
    · rw [List.getElem?_eq_none hge] at hi
      cases hi
  have hall := List.all_eq_true.mp hwf i (List.mem_range.mpr hilen)
  simp only [] at hall
  rw [hi] at hall
  simp only [] at hall
  cases hl : cs.lookup h with
  | none => rw [hl] at hall; simp at hall
  | some e =>
    rw [hl] at hall
    by_cases h0 : i = 0
    · simp [h0] at hall
      exact ⟨e, rfl, by simp [h0, hall.1], fun _ => hall.2, fun hne => absurd h0 hne⟩
    · simp [h0] at hall
      exact ⟨e, rfl, hall.1, fun heq => absurd heq h0, fun _ => hall.2⟩

/-- On a well-formed chain, the backward walk of
AutoSelectSyncCheckpoint started at position i with fuel i lands on the
chain element at position i if the depth condition already fails there,
at position T - d if the walk can descend that far, and at the genesis
position 0 otherwise. -/
theorem autoWalk_wfChain (cs : Chainstate) (d T : Int) (hwf : cs.wfChain = true) :
    ∀ (i : Nat) h e, cs.chain[i]? = some h → cs.lookup h = some e →
      e.nHeight = (i : Int) →
      cs.chain[(if (i : Int) + d ≤ T then i
        else if 0 ≤ T - d then (T - d).toNat else 0)]? =
        some (autoWalk cs d T i (h, e)) := by
  intro i
  induction i with
  | zero =>
    intro h e hi hl hh
    have hwalk : autoWalk cs d T 0 (h, e) = h := by simp [autoWalk]
    rw [hwalk]
    have hidx : (if ((0 : Nat) : Int) + d ≤ T then (0 : Nat)
        else if 0 ≤ T - d then (T - d).toNat else 0) = 0 := by
      split_ifs <;> omega
    rw [hidx]
    exact hi
  | succ i ih =>
    intro h e hi hl hh
    obtain ⟨e', hl', hh', _, hps⟩ := cs.wfChain_spec hwf (i+1) h hi
    have hee : e = e' := by
      rw [hl] at hl'
      exact Option.some.inj hl'
    have hp : e.pprev = cs.chain[i]? := by
      rw [hee]
      simpa using hps (Nat.succ_ne_zero i)
    have hilen : i + 1 < cs.chain.length := by
      rcases Nat.lt_or_ge (i+1) cs.chain.length with hlt | hge
      · exact hlt
      · rw [List.getElem?_eq_none hge] at hi
        cases hi
    obtain ⟨h2, hi2⟩ : ∃ h2, cs.chain[i]? = some h2 :=
      ⟨cs.chain[i], List.getElem?_eq_getElem (by omega)⟩
    obtain ⟨e2, hl2, hh2, _, _⟩ := cs.wfChain_spec hwf i h2 hi2
    by_cases hcond : e.nHeight + d > T
    · have hcondc : ((i+1 : Nat) : Int) + d > T := by
        rw [hh] at hcond
        exact hcond
      have hstep : autoWalk cs d T (i+1) (h, e) = autoWalk cs d T i (h2, e2) := by
        simp [autoWalk, hp, hi2, hl2, hcond]
      rw [hstep]
      have hrec := ih h2 e2 hi2 hl2 hh2
      have hjeq : (if ((i+1 : Nat) : Int) + d ≤ T then (i+1 : Nat)
          else if 0 ≤ T - d then (T - d).toNat else 0) =
          (if (i : Int) + d ≤ T then i
          else if 0 ≤ T - d then (T - d).toNat else 0) := by
        split_ifs <;> omega
      rw [hjeq]
      exact hrec
    · have hcondc : ¬ ((i+1 : Nat) : Int) + d > T := by
        rw [hh] at hcond
        exact hcond
      have hstop : autoWalk cs d T (i+1) (h, e) = h := by
        simp [autoWalk, hp, hi2, hcond]
      rw [hstop]
      have hj : (if ((i+1 : Nat) : Int) + d ≤ T then (i+1 : Nat)
          else if 0 ≤ T - d then (T - d).toNat else 0) = (i+1 : Nat) := by
        rw [if_pos (by omega)]
      rw [hj]
      exact hi

/-- C10: for a non-negative depth d on a non-empty well-formed chain
with tip height T = length - 1, AutoSelectSyncCheckpoint returns the
hash at height T - d when d ≤ T, and the genesis hash when the chain is
shorter than the depth. -/
theorem autoSelectSyncCheckpoint_depth (cs : Chainstate) (d : Int)
    (hwf : cs.wfChain = true) (hne : cs.chain ≠ []) (hd : 0 ≤ d) :
    (d ≤ (cs.chain.length : Int) - 1 →
      ∃ h, AutoSelectSyncCheckpoint cs d = some h ∧
        cs.chain[((cs.chain.length : Int) - 1 - d).toNat]? = some h) ∧
    ((cs.chain.length : Int) - 1 < d →
      ∃ h, AutoSelectSyncCheckpoint cs d = some h ∧
        cs.chain[0]? = some h) := by
  have hlen : 0 < cs.chain.length := List.length_pos.mpr hne
  obtain ⟨th, hth⟩ : ∃ th, cs.chain[cs.chain.length - 1]? = some th :=
    ⟨cs.chain[cs.chain.length - 1], List.getElem?_eq_getElem (by omega)⟩
  obtain ⟨tipE, htipl, hh, _, _⟩ := cs.wfChain_spec hwf (cs.chain.length - 1) th hth
  have hfuel : tipE.nHeight.toNat = cs.chain.length - 1 := by omega
  have hsel : AutoSelectSyncCheckpoint cs d =
      some (autoWalk cs d tipE.nHeight (cs.chain.length - 1) (th, tipE)) := by
    unfold AutoSelectSyncCheckpoint Chainstate.tip
    rw [hth]
    simp only []
    rw [htipl]
    simp [hfuel]
  have hmain := autoWalk_wfChain cs d tipE.nHeight hwf (cs.chain.length - 1)
    th tipE hth htipl hh
  constructor
  · intro hcase
    refine ⟨autoWalk cs d tipE.nHeight (cs.chain.length - 1) (th, tipE), hsel, ?_⟩
    have hidx : (if ((cs.chain.length - 1 : Nat) : Int) + d ≤ tipE.nHeight
        then cs.chain.length - 1
        else if 0 ≤ tipE.nHeight - d then (tipE.nHeight - d).toNat else 0)
        = ((cs.chain.length : Int) - 1 - d).toNat := by
      split_ifs <;> omega
    rw [hidx] at hmain
    exact hmain
  · intro hcase
    refine ⟨autoWalk cs d tipE.nHeight (cs.chain.length - 1) (th, tipE), hsel, ?_⟩
    have hidx : (if ((cs.chain.length - 1 : Nat) : Int) + d ≤ tipE.nHeight
        then cs.chain.length - 1
        else if 0 ≤ tipE.nHeight - d then (tipE.nHeight - d).toNat else 0)
        = 0 := by
      split_ifs <;> omega
    rw [hidx] at hmain
    exact hmain

/-- Witness for C10: depth 1 on the concrete three-block chain selects
the block at height 1. -/
theorem autoSelectSyncCheckpoint_witness :
    ∃ h, AutoSelectSyncCheckpoint exChain 1 = some h ∧
      exChain.chain[((exChain.chain.length : Int) - 1 - 1).toNat]? = some h :=
  (autoSelectSyncCheckpoint_depth exChain 1 (by decide) (by decide)
    (by decide)).1 (by decide)
